import Mathlib

/-!
Verification development for the Bynder transform-and-reupload webhook demo.

The repository is a set of Netlify function handlers (JavaScript) that react to
SNS notifications about changed DAM assets: they unwrap the notification
envelope, guard against re-processing the pipeline's own output (asset names
containing the separator sequence "__"), poll asset metadata until
`transformBaseUrl` is populated, derive per-preset transform URLs, download and
chunk-upload renditions, and finalize/save uploads either inline or through a
Redis-backed pending-upload queue drained by a scheduled pass.

This file is a shallow embedding of those handlers.  External effects (JSON
parsing of the inbound body, HTTP responses of the remote service, the clock)
are modelled as explicit inputs: a parse outcome datatype for the inbound body,
response streams (`Nat → _`) for the polled endpoints, and an explicit `now`
for the scheduled drain.  Waits (`setTimeout`) are modelled by counting them
(and recording each delay's duration), since only their number and fixed size
are observable in the specification.
-/

/-! ## JavaScript string primitives

`String.prototype.includes`, `String.prototype.split` (single-character
separator) and `String.prototype.trim`, modelled over `List Char` so that all
operations are structural and kernel-computable.
-/

/-- Is `le` a leading segment of the second list?  (Helper for `jsIncludes`.) -/
def listHasPre : List Char → List Char → Bool
  | [], _ => true
  | _ :: _, [] => false
  | a :: as, b :: bs => a == b && listHasPre as bs

/-- Does `needle` occur contiguously inside the second list? -/
def containsSeq (needle : List Char) : List Char → Bool
  | [] => needle.isEmpty
  | c :: cs => listHasPre needle (c :: cs) || containsSeq needle cs

/-- JavaScript `s.includes(sub)`. -/
def jsIncludes (s sub : String) : Bool :=
  containsSeq sub.data s.data

/-- JavaScript `s.split(sep)` for a single-character separator, on `List Char`.
`[]` input yields `[[]]`, matching `"".split("/") === [""]`. -/
def splitOnChar (sep : Char) : List Char → List (List Char)
  | [] => [[]]
  | c :: cs =>
    let r := splitOnChar sep cs
    if c = sep then [] :: r
    else (c :: r.headD []) :: r.tail

/-- JavaScript `s.split(sep)` producing strings. -/
def jsSplit (s : String) (sep : Char) : List String :=
  (splitOnChar sep s.data).map (fun cs => String.mk cs)

/-- JavaScript `s.trim()`: strip leading and trailing whitespace. -/
def jsTrim (cs : List Char) : List Char :=
  ((cs.dropWhile Char.isWhitespace).reverse.dropWhile Char.isWhitespace).reverse

/-- JavaScript string interpolation of a possibly-`undefined` value: an absent
value prints as the literal string `"undefined"`. -/
def jsOpt : Option String → String
  | some s => s
  | none => "undefined"

/-! ## Inbound notification model (`bynder-webhook.js`, STEP 1 / 2 / 2.5)

The handler first runs `JSON.parse(event.body)` (failure → 400 "Invalid
JSON"), then — for `Type === "Notification"` with a truthy `Message` — parses
the embedded message (failure is caught and merely logged), extracting
`media_id` and (in the loop-guard variant) the embedded `media` summary.
A missing/falsy `media_id` returns 200 "No mediaId found in webhook".
The loop-guard variant then returns a 200 skip response when
`media.name.includes("__")`, before any metadata fetch.
-/

/-- The embedded media summary carried by some notifications (`message.media`).
`name = none` models an absent (or `null`) `name` field. -/
structure MediaSummary where
  name : Option String
deriving DecidableEq

/-- The decoded Bynder message inside the SNS envelope. -/
structure BinderMessage where
  media_id : Option String
  media : Option MediaSummary
deriving DecidableEq

/-- Outcome of `JSON.parse(parsed.Message)`. -/
inductive MessagePayload where
  | malformed
  | parsed (msg : BinderMessage)
deriving DecidableEq

/-- The outer SNS envelope: its `Type` discriminator and its `Message` field
(`none` models an absent/falsy `Message`). -/
structure SnsEnvelope where
  type : Option String
  message : Option MessagePayload
deriving DecidableEq

/-- Outcome of `JSON.parse(event.body)`. -/
inductive InboundBody where
  | malformed
  | wellFormed (env : SnsEnvelope)
deriving DecidableEq

/-- The body kinds the ingress stage can answer with. -/
inductive ResponseBody where
  | invalidJsonText
  | noMediaIdText
  | skipJson (assetName : String)
deriving DecidableEq

/-- Result of the handler's ingress stage: either an immediate HTTP response
(produced before any remote call), or the decision to continue — the
continuation immediately invokes `fetchAssetInfoWithRetry` (metadata polling)
and the rest of the per-preset pipeline. -/
inductive Ingress where
  | respond (status : Nat) (body : ResponseBody)
  | continueProcessing (mediaId : String)
deriving DecidableEq

/-- Does the ingress outcome reach a remote call?  `respond` is returned before
any fetch; `continueProcessing` proceeds straight to the metadata fetch. -/
def ingressMakesRemoteCall : Ingress → Bool
  | Ingress.respond _ _ => false
  | Ingress.continueProcessing _ => true

/-- An HTTP client-error status. -/
def isClientError (status : Nat) : Prop :=
  400 ≤ status ∧ status < 500

/-- `media_id` / `media` extraction (STEP 1 inner block): only an envelope with
`Type === "Notification"` and a parseable `Message` yields anything; a failed
inner parse is caught and leaves both values `null`. -/
def extractBinder (env : SnsEnvelope) : Option String × Option MediaSummary :=
  if env.type = some "Notification" then
    match env.message with
    | some (MessagePayload.parsed msg) => (msg.media_id, msg.media)
    | _ => (none, none)
  else (none, none)

/-- Ingress stage of `src/netlify/functions/bynder-webhook.js` (no loop guard):
STEP 1 parse → STEP 2 missing-`media_id` early return → continue to STEP 3/4. -/
def webhookIngress : InboundBody → Ingress
  | InboundBody.malformed => Ingress.respond 400 ResponseBody.invalidJsonText
  | InboundBody.wellFormed env =>
    match (extractBinder env).1 with
    | none => Ingress.respond 200 ResponseBody.noMediaIdText
    | some mid =>
      if mid = "" then Ingress.respond 200 ResponseBody.noMediaIdText
      else Ingress.continueProcessing mid

/-- Ingress stage of the loop-guard handler variant (`src/unnamed/part_006`,
second handler): as `webhookIngress`, plus STEP 2.5 — when the embedded media
summary's truthy `name` contains `"__"`, return a 200 skip response before any
metadata fetch. -/
def guardedIngress : InboundBody → Ingress
  | InboundBody.malformed => Ingress.respond 400 ResponseBody.invalidJsonText
  | InboundBody.wellFormed env =>
    match extractBinder env with
    | (none, _) => Ingress.respond 200 ResponseBody.noMediaIdText
    | (some mid, originalMedia) =>
      if mid = "" then Ingress.respond 200 ResponseBody.noMediaIdText
      else
        match originalMedia with
        | some om =>
          match om.name with
          | some nm =>
            if (nm != "") && jsIncludes nm "__" then
              Ingress.respond 200 (ResponseBody.skipJson nm)
            else Ingress.continueProcessing mid
          | none => Ingress.continueProcessing mid
        | none => Ingress.continueProcessing mid

/-! ## Readiness poller (`fetchAssetInfoWithRetry`)

`fetchAssetInfoWithRetry(mediaId, retries = 6, delayMs = 4000)`: on each
attempt it fetches the asset metadata; a non-parseable response returns `null`
immediately; a response with truthy `transformBaseUrl` whose trimmed length is
positive is returned immediately; otherwise it sleeps `delayMs` and retries,
returning `null` after `retries` attempts.  The response of attempt `i` is
modelled as `resp i`; `fetches` counts metadata requests and `sleeps` counts
the fixed-length waits.
-/

/-- The metadata fields the handlers read.  `transformBaseUrl = none` models an
absent/`null` field. -/
structure AssetMetadata where
  transformBaseUrl : Option String
deriving DecidableEq

/-- The readiness check: `assetInfo.transformBaseUrl && assetInfo.transformBaseUrl.trim().length > 0`. -/
def isReady (m : AssetMetadata) : Bool :=
  match m.transformBaseUrl with
  | none => false
  | some s => !s.data.isEmpty && !(jsTrim s.data).isEmpty

/-- One attempt's metadata response: `response.json()` threw, or produced a
metadata object. -/
inductive MetaResponse where
  | unparseable
  | meta (m : AssetMetadata)
deriving DecidableEq

/-- Observable result of the poll: the returned value, how many fetches were
made, and how many fixed-length sleeps were taken. -/
structure PollResult where
  result : Option AssetMetadata
  fetches : Nat
  sleeps : Nat
deriving DecidableEq

/-- The retry loop of `fetchAssetInfoWithRetry`, with `fuel` remaining
attempts; `fetches`/`sleeps` accumulate those already taken. -/
def fetchAux (resp : Nat → MetaResponse) : Nat → Nat → Nat → PollResult
  | 0, fetches, sleeps => ⟨none, fetches, sleeps⟩
  | fuel + 1, fetches, sleeps =>
    match resp fetches with
    | MetaResponse.unparseable => ⟨none, fetches + 1, sleeps⟩
    | MetaResponse.meta m =>
      if isReady m then ⟨some m, fetches + 1, sleeps⟩
      else fetchAux resp fuel (fetches + 1) (sleeps + 1)

/-- `fetchAssetInfoWithRetry` over a response stream, with `retries` attempts. -/
def fetchAssetInfoWithRetry (resp : Nat → MetaResponse) (retries : Nat) : PollResult :=
  fetchAux resp retries 0 0

/-! ## Finalizer (`finalizeUploadWithRetry`)

`finalizeUploadWithRetry(uploadId, targetid, s3_filename, totalChunks,
retries)` POSTs to the finalize endpoint each attempt.  A response with
`finalizeRes.ok` and a truthy `importId` returns that import id; a response
with a truthy `retry` flag or `message === "Upload not ready"` sleeps the
fixed delay (2000 ms in `part_002`, 3000 ms in `part_004`) and retries; any
other response returns `null` immediately.  Exhausting the budget returns
`null`.  `delays` records each sleep taken, in order.
-/

/-- One finalize-endpoint response, as the code observes it. -/
structure FinalizeResponse where
  ok : Bool
  importId : Option Nat
  retryFlag : Bool
  message : Option String
deriving DecidableEq

/-- `finalizeRes.ok && finalizeJson?.importId`. -/
def finalizeSuccess (r : FinalizeResponse) : Bool :=
  r.ok && r.importId.isSome

/-- `finalizeJson?.retry || finalizeJson?.message === "Upload not ready"`. -/
def finalizeNotReady (r : FinalizeResponse) : Bool :=
  r.retryFlag || (r.message == some "Upload not ready")

/-- Observable result of the finalize loop: returned import id (if any),
number of attempts made, and the list of delays slept between attempts. -/
structure FinalizeResult where
  importId : Option Nat
  attempts : Nat
  delays : List Nat
deriving DecidableEq

/-- The retry loop of `finalizeUploadWithRetry`, with `fuel` remaining
attempts; `attempts`/`delays` accumulate those already taken. -/
def finalizeAux (resp : Nat → FinalizeResponse) (delayMs : Nat) :
    Nat → Nat → List Nat → FinalizeResult
  | 0, attempts, delays => ⟨none, attempts, delays⟩
  | fuel + 1, attempts, delays =>
    let r := resp attempts
    if finalizeSuccess r then ⟨r.importId, attempts + 1, delays⟩
    else if finalizeNotReady r then
      finalizeAux resp delayMs fuel (attempts + 1) (delays ++ [delayMs])
    else ⟨none, attempts + 1, delays⟩

/-- `finalizeUploadWithRetry` over a response stream, with `retries` attempts
and a fixed `delayMs` between retried attempts. -/
def finalizeUploadWithRetry (resp : Nat → FinalizeResponse) (retries delayMs : Nat) :
    FinalizeResult :=
  finalizeAux resp delayMs retries 0 []

/-! ## Pending-upload queue and scheduled drain (`src/unnamed/part_002`)

The scheduled finalizer reads the whole `pending-uploads` list, keeps only the
records at least 3 minutes old (`age = now - new Date(upload.createdAt)`),
attempts `finalizeUploadWithRetry` then `saveAsNewAsset` on each kept record,
collects the ids of records whose finalize *and* save succeeded, and — when
that set is non-empty — calls `removeCompletedUploads`, which re-reads the
list, filters out entries whose id is in the set and rewrites the whole list
with the remainder.  The remote outcomes of the two calls are modelled as
oracles `fin` (resulting import id, `none` on failure) and `sav`.
-/

/-- One durable queue record, with the fields the drain destructures. -/
structure PendingUpload where
  id : String
  uploadId : String
  targetid : String
  s3_filename : String
  filename : String
  presetName : String
  brandId : String
  totalChunks : Nat
  createdAt : Int
deriving DecidableEq

/-- `3 * 60 * 1000` — the drain's minimum record age in milliseconds. -/
def MIN_AGE_MS : Int := 3 * 60 * 1000

/-- The age gate: `pendingUploads.filter(u => now - u.createdAt >= minAge)`. -/
def readyUploads (pendingUploads : List PendingUpload) (now : Int) : List PendingUpload :=
  pendingUploads.filter (fun u => MIN_AGE_MS ≤ now - u.createdAt)

/-- Did this record's finalize-and-save fully succeed?  The save is only
attempted when finalize produced an import id. -/
def recordCompleted (fin : PendingUpload → Option Nat) (sav : PendingUpload → Bool)
    (u : PendingUpload) : Bool :=
  match fin u with
  | none => false
  | some _ => sav u

/-- The `completedIds` accumulated by the drain loop, in processing order. -/
def completedIds (ready : List PendingUpload) (fin : PendingUpload → Option Nat)
    (sav : PendingUpload → Bool) : List String :=
  (ready.filter (recordCompleted fin sav)).map (fun u => u.id)

/-- `removeCompletedUploads(ids)`: read the whole list, filter out entries
whose id is in `ids`, and destructively rewrite the list with the remainder. -/
def removeCompletedUploads (allUploads : List PendingUpload) (ids : List String) :
    List PendingUpload :=
  allUploads.filter (fun u => !(ids.contains u.id))

/-- The queue left behind by one scheduled drain pass: the handler calls
`removeCompletedUploads` only when `completedIds` is non-empty. -/
def runScheduledDrain (pendingUploads : List PendingUpload) (now : Int)
    (fin : PendingUpload → Option Nat) (sav : PendingUpload → Bool) : List PendingUpload :=
  let ids := completedIds (readyUploads pendingUploads now) fin sav
  if ids.isEmpty then pendingUploads else removeCompletedUploads pendingUploads ids

/-! ## Chunked uploader (`uploadDatImageToBynder`, `src/unnamed/part_006`)

`CHUNK_SIZE = 5 * 1024 * 1024`; `totalChunks = Math.ceil(buffer.length /
CHUNK_SIZE)`; chunk `i` (0-based) spans `[i*CHUNK_SIZE, min((i+1)*CHUNK_SIZE,
buffer.length))`; the register-chunks POST is made only when
`totalChunks > 1` ("Single chunk upload - skipping chunk registration").
-/

/-- `5 * 1024 * 1024`. -/
def CHUNK_SIZE : Nat := 5 * 1024 * 1024

/-- `Math.ceil(filesize / CHUNK_SIZE)`. -/
def totalChunks (filesize : Nat) : Nat :=
  (filesize + CHUNK_SIZE - 1) / CHUNK_SIZE

/-- The `(start, end)` byte bounds of every uploaded chunk, in order:
`start = i * CHUNK_SIZE`, `end = Math.min(start + CHUNK_SIZE, filesize)`. -/
def chunkBounds (filesize : Nat) : List (Nat × Nat) :=
  (List.range (totalChunks filesize)).map
    (fun i => (i * CHUNK_SIZE, min (i * CHUNK_SIZE + CHUNK_SIZE) filesize))

/-- The size of every uploaded chunk (`buffer.subarray(start, end).length`). -/
def chunkSizes (filesize : Nat) : List Nat :=
  (chunkBounds filesize).map (fun b => b.2 - b.1)

/-- Whether the uploader performs the register-chunks call:
`if (totalChunks > 1)`. -/
def registersChunks (filesize : Nat) : Bool :=
  decide (1 < totalChunks filesize)

/-! ## Transform address resolver (`generateDatUrls`)

`generateDatUrls(assetInfo, presets)` returns `{}` when `assetInfo` or its
`transformBaseUrl` is falsy; otherwise it splits the base URL on `"/"`, pops
the last segment (`slug`) and then the new last segment (`id`), and maps every
preset to `https://jakob-spott.bynder.com/transform/${preset}/${id}/${slug}`.
When the base has no `"/"`, the second `pop()` yields `undefined`, which the
template literal interpolates as the string `"undefined"` (`jsOpt`).
-/

/-- `generateDatUrls`, as a list of `(preset, url)` pairs in preset order.
The `Option` argument models `assetInfo.transformBaseUrl`, with `none` for an
absent/`null` field (falsy, like the empty string). -/
def generateDatUrls (transformBaseUrl : Option String) (presets : List String) :
    List (String × String) :=
  match transformBaseUrl with
  | none => []
  | some base =>
    if base = "" then []
    else
      let parts := jsSplit base '/'
      let slug := jsOpt parts.getLast?
      let renditionId := jsOpt parts.dropLast.getLast?
      presets.map (fun preset =>
        (preset, "https://jakob-spott.bynder.com/transform/" ++ preset ++ "/" ++
          renditionId ++ "/" ++ slug))

/-! ## Concrete inputs used by the witnesses -/

/-- Finalize response stream `[not-ready, not-ready, importId=42]`. -/
def respNotReadyTwice : Nat → FinalizeResponse :=
  fun i => if i < 2 then ⟨true, none, false, some "Upload not ready"⟩
           else ⟨true, some 42, false, none⟩

/-- A metadata object that is ready on the first attempt. -/
def readyMeta : AssetMetadata :=
  ⟨some "https://jakob-spott.bynder.com/transform/R123/slug-name"⟩

/-- A metadata stream that always answers with `readyMeta`. -/
def respAlwaysReady : Nat → MetaResponse :=
  fun _ => MetaResponse.meta readyMeta

/-- Queue record `a`, created at time 0, completed by `exFin`/`exSav`. -/
def exA : PendingUpload := ⟨"a", "u-a", "t-a", "s3/a", "f-a", "TestPreset", "b1", 1, 0⟩

/-- Queue record `b`, created at time 0, whose finalize fails. -/
def exB : PendingUpload := ⟨"b", "u-b", "t-b", "s3/b", "f-b", "crop300", "b1", 3, 0⟩

/-- Queue record `c`, created at time 0, completed by `exFin`/`exSav`. -/
def exC : PendingUpload := ⟨"c", "u-c", "t-c", "s3/c", "f-c", "crop300", "b1", 2, 0⟩

/-- A queue record created at time 0, used for the age-gate witness. -/
def exYoung : PendingUpload := ⟨"y", "u-y", "t-y", "s3/y", "f-y", "crop300", "b1", 1, 0⟩

/-- Finalize oracle for the drain witnesses: every record except `b` yields
an import identifier. -/
def exFin (u : PendingUpload) : Option Nat :=
  if u.id = "b" then none else some 7

/-- Save oracle for the drain witnesses: saving always succeeds. -/
def exSav (_ : PendingUpload) : Bool := true

/-! ## Helper lemmas -/

/-- `String.append` concatenates the underlying character lists. -/
theorem strData_append (s t : String) : (s ++ t).data = s.data ++ t.data := rfl

/-- A separator-free list splits into itself alone. -/
theorem splitOnChar_sepFree (sep : Char) (l : List Char) (h : ∀ c ∈ l, c ≠ sep) :
    splitOnChar sep l = [l] := by
  induction l with
  | nil => rfl
  | cons c cs ih =>
    have hc : c ≠ sep := h c (List.mem_cons_self c cs)
    have hcs : ∀ x ∈ cs, x ≠ sep := fun x hx => h x (List.mem_cons_of_mem c hx)
    simp [splitOnChar, hc, ih hcs]

/-- Splitting past a separator-free leading segment peels it off whole. -/
theorem splitOnChar_append_sep (sep : Char) (xs ys : List Char) (h : ∀ c ∈ xs, c ≠ sep) :
    splitOnChar sep (xs ++ sep :: ys) = xs :: splitOnChar sep ys := by
  induction xs with
  | nil => simp [splitOnChar]
  | cons c cs ih =>
    have hc : c ≠ sep := h c (List.mem_cons_self c cs)
    have hcs : ∀ x ∈ cs, x ≠ sep := fun x hx => h x (List.mem_cons_of_mem c hx)
    simp [splitOnChar, hc, ih hcs]

/-- Splitting the transform-base form yields the host segments followed by the
rendition id and slug. -/
theorem transformSplit (rid slug : String)
    (hrid : ∀ c ∈ rid.data, c ≠ '/') (hslug : ∀ c ∈ slug.data, c ≠ '/') :
    splitOnChar '/' (("https://jakob-spott.bynder.com/transform/" ++ rid ++ "/" ++ slug).data)
      = ["https:".data, [], "jakob-spott.bynder.com".data, "transform".data,
         rid.data, slug.data] := by
  have h0 : ("https://jakob-spott.bynder.com/transform/" ++ rid ++ "/" ++ slug).data
      = "https://jakob-spott.bynder.com/transform/".data ++ (rid.data ++ ('/' :: slug.data)) := by
    simp only [strData_append, List.append_assoc]
    rfl
  have hdata : ("https://jakob-spott.bynder.com/transform/" ++ rid ++ "/" ++ slug).data
      = "https:".data ++ '/' :: ([] ++ '/' :: ("jakob-spott.bynder.com".data ++ '/' ::
          ("transform".data ++ '/' :: (rid.data ++ '/' :: slug.data)))) := by
    rw [h0]; rfl
  rw [hdata,
      splitOnChar_append_sep '/' "https:".data _ (by decide),
      splitOnChar_append_sep '/' [] _ (by simp),
      splitOnChar_append_sep '/' "jakob-spott.bynder.com".data _ (by decide),
      splitOnChar_append_sep '/' "transform".data _ (by decide),
      splitOnChar_append_sep '/' rid.data _ hrid,
      splitOnChar_sepFree '/' slug.data hslug]

/-- While every response is a parseable, unready metadata object, the poll loop
just consumes fuel, advancing the fetch and sleep counters. -/
theorem fetchAux_skip (resp : Nat → MetaResponse) :
    ∀ (k fuel a s : Nat),
      (∀ j, j < k → ∃ mj, resp (a + j) = MetaResponse.meta mj ∧ isReady mj = false) →
      k ≤ fuel →
      fetchAux resp fuel a s = fetchAux resp (fuel - k) (a + k) (s + k) := by
  intro k
  induction k with
  | zero => intro fuel a s _ _; simp
  | succ k ih =>
    intro fuel a s h hk
    obtain ⟨m0, hm0, hr0⟩ := h 0 (Nat.succ_pos k)
    rw [Nat.add_zero] at hm0
    obtain ⟨f, rfl⟩ : ∃ f, fuel = f + 1 := ⟨fuel - 1, by omega⟩
    have step : fetchAux resp (f + 1) a s = fetchAux resp f (a + 1) (s + 1) := by
      simp [fetchAux, hm0, hr0]
    rw [step]
    have h' : ∀ j, j < k →
        ∃ mj, resp (a + 1 + j) = MetaResponse.meta mj ∧ isReady mj = false := by
      intro j hj
      have hjs := h (j + 1) (by omega)
      rwa [show a + (j + 1) = a + 1 + j by omega] at hjs
    rw [ih f (a + 1) (s + 1) h' (by omega)]
    have e1 : f + 1 - (k + 1) = f - k := by omega
    have e2 : a + (k + 1) = a + 1 + k := by omega
    have e3 : s + (k + 1) = s + 1 + k := by omega
    rw [e1, e2, e3]

/-- While every response is retryable ("not ready"), the finalize loop just
consumes fuel, advancing the attempt counter and appending fixed delays. -/
theorem finalizeAux_skip (resp : Nat → FinalizeResponse) (d : Nat) :
    ∀ (k fuel a : Nat) (ds : List Nat),
      (∀ j, j < k → finalizeSuccess (resp (a + j)) = false ∧
        finalizeNotReady (resp (a + j)) = true) →
      k ≤ fuel →
      finalizeAux resp d fuel a ds
        = finalizeAux resp d (fuel - k) (a + k) (ds ++ List.replicate k d) := by
  intro k
  induction k with
  | zero => intro fuel a ds _ _; simp
  | succ k ih =>
    intro fuel a ds h hk
    obtain ⟨hs0, hn0⟩ := h 0 (Nat.succ_pos k)
    rw [Nat.add_zero] at hs0 hn0
    obtain ⟨f, rfl⟩ : ∃ f, fuel = f + 1 := ⟨fuel - 1, by omega⟩
    have step : finalizeAux resp d (f + 1) a ds = finalizeAux resp d f (a + 1) (ds ++ [d]) := by
      simp [finalizeAux, hs0, hn0]
    rw [step]
    have h' : ∀ j, j < k → finalizeSuccess (resp (a + 1 + j)) = false ∧
        finalizeNotReady (resp (a + 1 + j)) = true := by
      intro j hj
      have hjs := h (j + 1) (by omega)
      rwa [show a + (j + 1) = a + 1 + j by omega] at hjs
    rw [ih f (a + 1) (ds ++ [d]) h' (by omega)]
    have e1 : f + 1 - (k + 1) = f - k := by omega
    have e2 : a + (k + 1) = a + 1 + k := by omega
    have e3 : ds ++ [d] ++ List.replicate k d = ds ++ List.replicate (k + 1) d := by
      simp [List.replicate_succ]
    rw [e1, e2, e3]

/-- Removing an empty id set leaves the queue unchanged. -/
theorem removeCompletedUploads_nil (l : List PendingUpload) :
    removeCompletedUploads l [] = l := by
  simp [removeCompletedUploads]

/-- The drain's conditional removal equals unconditional removal (removing an
empty id set is the identity). -/
theorem runScheduledDrain_eq (q : List PendingUpload) (now : Int)
    (fin : PendingUpload → Option Nat) (sav : PendingUpload → Bool) :
    runScheduledDrain q now fin sav
      = removeCompletedUploads q (completedIds (readyUploads q now) fin sav) := by
  unfold runScheduledDrain
  dsimp only
  split
  · next h =>
    rw [List.isEmpty_iff.mp h, removeCompletedUploads_nil]
  · rfl

/-- Membership in the rewritten queue: exactly the records whose id is not in
the removed set, unchanged. -/
theorem mem_removeCompletedUploads (l : List PendingUpload) (ids : List String)
    (u : PendingUpload) :
    u ∈ removeCompletedUploads l ids ↔ u ∈ l ∧ u.id ∉ ids := by
  simp [removeCompletedUploads, List.mem_filter]

/-! ## Claim theorems -/

/-- Claim C1: for every inbound notification carrying an embedded asset summary
(and a usable media id), if the asset's name contains the separator sequence
`"__"` the loop-guard handler stops right after ingestion — answering with the
200 skip response, before any metadata fetch — and if the name does not
contain `"__"` processing continues to the metadata-polling pipeline. -/
theorem loopGuard_spec (mid nm : String) (hmid : mid ≠ "") :
    (jsIncludes nm "__" = true →
       guardedIngress (InboundBody.wellFormed
           ⟨some "Notification", some (MessagePayload.parsed ⟨some mid, some ⟨some nm⟩⟩)⟩)
         = Ingress.respond 200 (ResponseBody.skipJson nm)
       ∧ ingressMakesRemoteCall (guardedIngress (InboundBody.wellFormed
           ⟨some "Notification", some (MessagePayload.parsed ⟨some mid, some ⟨some nm⟩⟩)⟩))
         = false)
  ∧ (jsIncludes nm "__" = false →
       guardedIngress (InboundBody.wellFormed
           ⟨some "Notification", some (MessagePayload.parsed ⟨some mid, some ⟨some nm⟩⟩)⟩)
         = Ingress.continueProcessing mid) := by
  constructor
  · intro hinc
    have hnm : nm ≠ "" := by
      intro h
      subst h
      exact absurd hinc (by decide)
    constructor <;>
      simp [guardedIngress, extractBinder, ingressMakesRemoteCall, hmid, hnm, hinc]
  · intro hinc
    simp [guardedIngress, extractBinder, hmid, hinc]

/-- Witness for C1: `photo__crop300.jpg` is rejected by the loop guard with a
200 skip response and no remote call; `photo.jpg` is accepted and processing
continues. -/
theorem loopGuard_spec_witness :
    guardedIngress (InboundBody.wellFormed
        ⟨some "Notification",
         some (MessagePayload.parsed ⟨some "12345", some ⟨some "photo__crop300.jpg"⟩⟩)⟩)
      = Ingress.respond 200 (ResponseBody.skipJson "photo__crop300.jpg")
  ∧ guardedIngress (InboundBody.wellFormed
        ⟨some "Notification",
         some (MessagePayload.parsed ⟨some "12345", some ⟨some "photo.jpg"⟩⟩)⟩)
      = Ingress.continueProcessing "12345" := by
  constructor
  · exact (((loopGuard_spec "12345" "photo__crop300.jpg" (by decide)).1 (by decide))).1
  · exact (loopGuard_spec "12345" "photo.jpg" (by decide)).2 (by decide)

/-- Claim C10: a notification carrying a usable media id but no embedded media
summary with a name (`media` absent, or `media.name` absent) skips the
loop-guard check entirely and continues to metadata polling and the per-preset
pipeline — the guard consults nothing but the embedded summary, so this holds
even when the asset actually is a derivative produced by this pipeline. -/
theorem missingSummary_skips_guard (mid : String) (hmid : mid ≠ "") :
    guardedIngress (InboundBody.wellFormed
        ⟨some "Notification", some (MessagePayload.parsed ⟨some mid, none⟩)⟩)
      = Ingress.continueProcessing mid
  ∧ ∀ summary : MediaSummary, summary.name = none →
      guardedIngress (InboundBody.wellFormed
          ⟨some "Notification", some (MessagePayload.parsed ⟨some mid, some summary⟩)⟩)
        = Ingress.continueProcessing mid := by
  constructor
  · simp [guardedIngress, extractBinder, hmid]
  · rintro ⟨n⟩ hs
    simp only at hs
    subst hs
    simp [guardedIngress, extractBinder, hmid]

/-- Witness for C10: a notification about media id `12345` with no embedded
summary, and one with a nameless summary, both continue processing. -/
theorem missingSummary_skips_guard_witness :
    guardedIngress (InboundBody.wellFormed
        ⟨some "Notification", some (MessagePayload.parsed ⟨some "12345", none⟩)⟩)
      = Ingress.continueProcessing "12345"
  ∧ guardedIngress (InboundBody.wellFormed
        ⟨some "Notification", some (MessagePayload.parsed ⟨some "12345", some ⟨none⟩⟩)⟩)
      = Ingress.continueProcessing "12345" := by
  constructor
  · exact (missingSummary_skips_guard "12345" (by decide)).1
  · exact (missingSummary_skips_guard "12345" (by decide)).2 ⟨none⟩ rfl

/-- Counterexample for C7: a Notification whose embedded `Message` fails to
parse does *not* yield a client-error status — the handler catches the inner
parse failure, finds no media id, and answers 200 "No mediaId found in
webhook". -/
theorem malformedMessage_counterexample :
    webhookIngress (InboundBody.wellFormed ⟨some "Notification", some MessagePayload.malformed⟩)
      = Ingress.respond 200 ResponseBody.noMediaIdText
  ∧ ¬ isClientError 200 := by
  constructor
  · decide
  · simp only [isClientError]
    decide

/-- Claim C7 as amended: a non-JSON outer body aborts with client error 400
and the plain-text "Invalid JSON" body, with nothing processed; a Notification
whose embedded `Message` fails to parse is instead treated as carrying no
media id — a 200 success response with the plain-text "No mediaId found in
webhook" body — still with no downstream remote call made. -/
theorem malformedInput_amended :
    (webhookIngress InboundBody.malformed = Ingress.respond 400 ResponseBody.invalidJsonText
     ∧ isClientError 400
     ∧ ingressMakesRemoteCall (webhookIngress InboundBody.malformed) = false)
  ∧ (webhookIngress (InboundBody.wellFormed ⟨some "Notification", some MessagePayload.malformed⟩)
       = Ingress.respond 200 ResponseBody.noMediaIdText
     ∧ ingressMakesRemoteCall (webhookIngress (InboundBody.wellFormed
         ⟨some "Notification", some MessagePayload.malformed⟩)) = false) := by
  simp only [isClientError]
  decide

/-- Claim C4: after a drain pass, the queue holds exactly the records whose id
is not among the ids of records whose finalize-and-save fully succeeded, each
an unchanged sublist element of the original queue (read–filter–rewrite); and
concretely, draining three records of which two succeed leaves exactly the one
failed record, unmodified. -/
theorem removeCompleted_spec (queue : List PendingUpload) (now : Int)
    (fin : PendingUpload → Option Nat) (sav : PendingUpload → Bool) :
    (∀ u, u ∈ runScheduledDrain queue now fin sav ↔
       u ∈ queue ∧ u.id ∉ completedIds (readyUploads queue now) fin sav)
  ∧ (runScheduledDrain queue now fin sav).Sublist queue
  ∧ runScheduledDrain [exA, exB, exC] 600000 exFin exSav = [exB] := by
  refine ⟨?_, ?_, by decide⟩
  · intro u
    rw [runScheduledDrain_eq]
    exact mem_removeCompletedUploads queue _ u
  · rw [runScheduledDrain_eq]
    exact List.filter_sublist queue

/-- Claim C5: the scheduled drain attempts finalize-and-save on a pending
record exactly when its age (`now - createdAt`) is at least the configured
3-minute minimum (`readyUploads` is the list of records the drain loop
processes); a younger record — as long as no processed record shares its id —
is left untouched in the queue for the next pass. -/
theorem ageGate_spec (queue : List PendingUpload) (now : Int)
    (fin : PendingUpload → Option Nat) (sav : PendingUpload → Bool) (u : PendingUpload) :
    (u ∈ readyUploads queue now ↔ u ∈ queue ∧ MIN_AGE_MS ≤ now - u.createdAt)
  ∧ (u ∈ queue → now - u.createdAt < MIN_AGE_MS →
       (∀ v ∈ readyUploads queue now, v.id ≠ u.id) →
       u ∈ runScheduledDrain queue now fin sav) := by
  constructor
  · simp [readyUploads, List.mem_filter]
  · intro hu hyoung hid
    rw [runScheduledDrain_eq, mem_removeCompletedUploads]
    refine ⟨hu, ?_⟩
    intro hmem
    obtain ⟨v, hv, hveq⟩ := List.mem_map.mp hmem
    exact hid v (List.mem_of_mem_filter hv) hveq

/-- Witness for C5: with the 3-minute minimum age, a record created 2 minutes
before `now` is not processed and survives a drain pass in which an old record
completes, while the same record is processed once its age reaches 3 minutes. -/
theorem ageGate_spec_witness :
    exYoung ∉ readyUploads [exYoung] 120000
  ∧ exYoung ∈ readyUploads [exYoung] 180000
  ∧ exYoung ∈ runScheduledDrain [exA, exYoung] 120000 exFin exSav := by
  refine ⟨?_, ?_, ?_⟩
  · intro hmem
    have h := ((ageGate_spec [exYoung] 120000 exFin exSav exYoung).1).mp hmem
    exact absurd h.2 (by decide)
  · exact ((ageGate_spec [exYoung] 180000 exFin exSav exYoung).1).mpr ⟨by decide, by decide⟩
  · exact (ageGate_spec [exA, exYoung] 120000 exFin exSav exYoung).2 (by decide) (by decide)
      (by decide)

/-- Claim C2: `finalizeUploadWithRetry` retries — with the one fixed delay, no
backoff — exactly on responses explicitly signaling not-ready, up to the retry
budget; the first success returns its import id after `k + 1` attempts with
`k` fixed delays between them; any other non-success response ends the loop
immediately with failure after `k + 1` attempts; a stream that is never ready
exhausts the budget with exactly `retries` attempts and returns failure. -/
theorem finalizeUploadWithRetry_spec (resp : Nat → FinalizeResponse)
    (retries delayMs k : Nat) (hk : k < retries)
    (hbefore : ∀ j, j < k → finalizeSuccess (resp j) = false ∧
      finalizeNotReady (resp j) = true) :
    (finalizeSuccess (resp k) = true →
       finalizeUploadWithRetry resp retries delayMs
         = ⟨(resp k).importId, k + 1, List.replicate k delayMs⟩)
  ∧ (finalizeSuccess (resp k) = false → finalizeNotReady (resp k) = false →
       finalizeUploadWithRetry resp retries delayMs
         = ⟨none, k + 1, List.replicate k delayMs⟩)
  ∧ ((∀ j, j < retries → finalizeSuccess (resp j) = false ∧
        finalizeNotReady (resp j) = true) →
       finalizeUploadWithRetry resp retries delayMs
         = ⟨none, retries, List.replicate retries delayMs⟩) := by
  have hskip := finalizeAux_skip resp delayMs k retries 0 [] (by simpa using hbefore)
    (le_of_lt hk)
  obtain ⟨t, ht⟩ : ∃ t, retries - k = t + 1 := ⟨retries - k - 1, by omega⟩
  refine ⟨?_, ?_, ?_⟩
  · intro hsucc
    unfold finalizeUploadWithRetry
    rw [hskip, ht]
    simp [finalizeAux, hsucc]
  · intro hsucc hnr
    unfold finalizeUploadWithRetry
    rw [hskip, ht]
    simp [finalizeAux, hsucc, hnr]
  · intro hall
    unfold finalizeUploadWithRetry
    rw [finalizeAux_skip resp delayMs retries retries 0 [] (by simpa using hall) (le_refl _)]
    simp [finalizeAux]

/-- Witness for C2: the response stream `[not-ready, not-ready, importId=42]`
yields `42` after exactly 3 attempts with the configured 2000 ms delay slept
between each pair of attempts. -/
theorem finalizeUploadWithRetry_spec_witness :
    finalizeUploadWithRetry respNotReadyTwice 3 2000 = ⟨some 42, 3, [2000, 2000]⟩ := by
  have h := (finalizeUploadWithRetry_spec respNotReadyTwice 3 2000 2 (by decide)
    (by intro j hj
        interval_cases j <;> exact ⟨by decide, by decide⟩)).1 (by decide)
  rw [h]
  decide

/-- Claim C6: the metadata poller returns the first ready metadata object with
no sleep after that attempt (`k` prior unready attempts mean `k + 1` fetches
and `k` sleeps — in particular a first ready response returns after one fetch
and no sleep); a non-parseable response at any attempt aborts the poll there
and returns Unavailable; and a stream that is never ready makes exactly
`retries` fetch calls before returning Unavailable. -/
theorem fetchAssetInfoWithRetry_spec (resp : Nat → MetaResponse) (retries k : Nat)
    (m : AssetMetadata) (hk : k < retries)
    (hbefore : ∀ j, j < k → ∃ mj, resp j = MetaResponse.meta mj ∧ isReady mj = false) :
    (resp k = MetaResponse.meta m → isReady m = true →
       fetchAssetInfoWithRetry resp retries = ⟨some m, k + 1, k⟩)
  ∧ (resp k = MetaResponse.unparseable →
       fetchAssetInfoWithRetry resp retries = ⟨none, k + 1, k⟩)
  ∧ ((∀ j, j < retries → ∃ mj, resp j = MetaResponse.meta mj ∧ isReady mj = false) →
       fetchAssetInfoWithRetry resp retries = ⟨none, retries, retries⟩) := by
  have hskip := fetchAux_skip resp k retries 0 0 (by simpa using hbefore) (le_of_lt hk)
  obtain ⟨t, ht⟩ : ∃ t, retries - k = t + 1 := ⟨retries - k - 1, by omega⟩
  refine ⟨?_, ?_, ?_⟩
  · intro hrk hready
    unfold fetchAssetInfoWithRetry
    rw [hskip, ht]
    simp [fetchAux, hrk, hready]
  · intro hrk
    unfold fetchAssetInfoWithRetry
    rw [hskip, ht]
    simp [fetchAux, hrk]
  · intro hall
    unfold fetchAssetInfoWithRetry
    rw [fetchAux_skip resp retries retries 0 0 (by simpa using hall) (le_refl _)]
    simp [fetchAux]

/-- Witness for C6: a metadata object whose `transformBaseUrl` is non-empty is
returned on the very first of the 6 attempts, with no sleep invoked. -/
theorem fetchAssetInfoWithRetry_spec_witness :
    fetchAssetInfoWithRetry respAlwaysReady 6 = ⟨some readyMeta, 1, 0⟩ := by
  have h := (fetchAssetInfoWithRetry_spec respAlwaysReady 6 0 readyMeta (by decide)
    (fun j hj => absurd hj (Nat.not_lt_zero j))).1 rfl (by decide)
  exact h

/-- Claim C3: for a positive payload of `filesize` bytes the uploader produces
exactly `ceil(filesize / CHUNK_SIZE)` chunks — the chunk count `len` satisfies
`(len - 1) * CHUNK_SIZE < filesize ≤ len * CHUNK_SIZE` — every chunk except
the last has size `CHUNK_SIZE`, the last has the positive remainder size of at
most `CHUNK_SIZE`, and the register-chunks call is performed exactly when the
chunk count exceeds 1, i.e. when the payload exceeds `CHUNK_SIZE`. -/
theorem chunkedUpload_spec (filesize : Nat) (hpos : 0 < filesize) :
    (chunkSizes filesize).length = (filesize + CHUNK_SIZE - 1) / CHUNK_SIZE
  ∧ filesize ≤ (chunkSizes filesize).length * CHUNK_SIZE
  ∧ ((chunkSizes filesize).length - 1) * CHUNK_SIZE < filesize
  ∧ (∀ i, i < totalChunks filesize →
       (chunkSizes filesize)[i]? =
         some (if i + 1 < totalChunks filesize then CHUNK_SIZE
               else filesize - i * CHUNK_SIZE))
  ∧ 0 < filesize - (totalChunks filesize - 1) * CHUNK_SIZE
  ∧ filesize - (totalChunks filesize - 1) * CHUNK_SIZE ≤ CHUNK_SIZE
  ∧ (registersChunks filesize = true ↔ CHUNK_SIZE < filesize) := by
  have hlen : (chunkSizes filesize).length = totalChunks filesize := by
    simp [chunkSizes, chunkBounds]
  refine ⟨hlen, ?_, ?_, ?_, ?_, ?_, ?_⟩
  · rw [hlen]
    simp only [totalChunks, CHUNK_SIZE]
    omega
  · rw [hlen]
    simp only [totalChunks, CHUNK_SIZE]
    omega
  · intro i hi
    have hi' : i < ((List.range (totalChunks filesize)).map
        (fun j => (j * CHUNK_SIZE, min (j * CHUNK_SIZE + CHUNK_SIZE) filesize))).length := by
      simpa using hi
    rw [show chunkSizes filesize = (chunkBounds filesize).map (fun b => b.2 - b.1) from rfl]
    rw [show chunkBounds filesize = (List.range (totalChunks filesize)).map
        (fun j => (j * CHUNK_SIZE, min (j * CHUNK_SIZE + CHUNK_SIZE) filesize)) from rfl]
    rw [List.getElem?_map, List.getElem?_map, List.getElem?_range hi]
    simp only [Option.map_some']
    congr 1
    split
    · next hlt =>
      simp only [totalChunks, CHUNK_SIZE] at hi hlt ⊢
      omega
    · next hge =>
      simp only [totalChunks, CHUNK_SIZE] at hi hge ⊢
      omega
  · simp only [totalChunks, CHUNK_SIZE]
    omega
  · simp only [totalChunks, CHUNK_SIZE]
    omega
  · simp only [registersChunks, totalChunks, CHUNK_SIZE, decide_eq_true_eq]
    omega

/-- Witness for C3: a 12 MiB payload yields exactly the chunk sizes
5 MiB, 5 MiB, 2 MiB and performs registration; a 4 MiB payload yields exactly
one chunk and registration is skipped. -/
theorem chunkedUpload_spec_witness :
    chunkSizes 12582912 = [5242880, 5242880, 2097152]
  ∧ chunkSizes 4194304 = [4194304]
  ∧ registersChunks 12582912 = true
  ∧ registersChunks 4194304 = false := by
  have h12 := (chunkedUpload_spec 12582912 (by decide)).2.2.2.2.2.2
  have h4 := (chunkedUpload_spec 4194304 (by decide)).2.2.2.2.2.2
  refine ⟨by decide, by decide, h12.mpr (by decide), ?_⟩
  have hnot : ¬ registersChunks 4194304 = true := fun h => absurd (h4.mp h) (by decide)
  exact Bool.eq_false_iff.mpr hnot

/-- Claim C8: for every transform-base address of the documented form
`https://jakob-spott.bynder.com/transform/<renditionId>/<slug>` (the two
trailing segments containing no `/`) and every preset list, the resolver maps
each preset to `https://jakob-spott.bynder.com/transform/<preset>/<renditionId>/<slug>`:
the preset segment is inserted while the trailing rendition-id and slug
segments, and the rest of the address, are preserved verbatim. -/
theorem generateDatUrls_template_spec (rid slug : String) (presets : List String)
    (hrid : ∀ c ∈ rid.data, c ≠ '/') (hslug : ∀ c ∈ slug.data, c ≠ '/') :
    generateDatUrls (some ("https://jakob-spott.bynder.com/transform/" ++ rid ++ "/" ++ slug))
        presets
      = presets.map (fun preset =>
          (preset, "https://jakob-spott.bynder.com/transform/" ++ preset ++ "/" ++
            rid ++ "/" ++ slug)) := by
  have hsplit := transformSplit rid slug hrid hslug
  have hne : ("https://jakob-spott.bynder.com/transform/" ++ rid ++ "/" ++ slug) ≠ "" := by
    intro h
    rw [h] at hsplit
    have hlen := congrArg List.length hsplit
    rw [show splitOnChar '/' ("" : String).data = [[]] from rfl] at hlen
    simp at hlen
  simp only [generateDatUrls, if_neg hne, jsSplit, hsplit]
  simp only [List.map_cons, List.map_nil]
  rfl

/-- Witness for C8: base `.../transform/R123/slug-name` with preset `crop300`
resolves to `.../transform/crop300/R123/slug-name`. -/
theorem generateDatUrls_template_spec_witness :
    generateDatUrls (some "https://jakob-spott.bynder.com/transform/R123/slug-name")
        ["crop300"]
      = [("crop300", "https://jakob-spott.bynder.com/transform/crop300/R123/slug-name")] := by
  have h := generateDatUrls_template_spec "R123" "slug-name" ["crop300"]
    (by decide) (by decide)
  have hbase : ("https://jakob-spott.bynder.com/transform/" ++ "R123" ++ "/" ++ "slug-name"
      : String) = "https://jakob-spott.bynder.com/transform/R123/slug-name" := by decide
  rw [hbase] at h
  rw [h]
  decide

/-- Counterexample for C9: for the non-empty base `"abc"` (fewer than two path
segments) and the non-empty preset list `["crop300"]`, the resolver does *not*
yield an empty mapping — it yields one address per preset, with the string
`"undefined"` interpolated where the rendition id would be. -/
theorem shortBase_counterexample :
    generateDatUrls (some "abc") ["crop300"]
      = [("crop300", "https://jakob-spott.bynder.com/transform/crop300/undefined/abc")]
  ∧ generateDatUrls (some "abc") ["crop300"] ≠ [] := by
  constructor
  · decide
  · decide

/-- Claim C9 as amended: for every non-empty base address with no path
separator at all, the resolver still yields one address per preset, of the
form `https://jakob-spott.bynder.com/transform/<preset>/undefined/<base>`
(the second `pop()` yields `undefined`, which the template interpolates as a
literal string); only an absent or empty base yields an empty mapping. -/
theorem shortBase_amended (base : String) (presets : List String)
    (hne : base ≠ "") (hfree : ∀ c ∈ base.data, c ≠ '/') :
    generateDatUrls (some base) presets
      = presets.map (fun preset =>
          (preset, "https://jakob-spott.bynder.com/transform/" ++ preset ++ "/" ++
            "undefined" ++ "/" ++ base))
  ∧ generateDatUrls none presets = []
  ∧ generateDatUrls (some "") presets = [] := by
  refine ⟨?_, rfl, rfl⟩
  have hsplit : splitOnChar '/' base.data = [base.data] :=
    splitOnChar_sepFree '/' base.data hfree
  simp only [generateDatUrls, if_neg hne, jsSplit, hsplit]
  simp only [List.map_cons, List.map_nil]
  rfl

/-- Witness for C9 (amended): base `"abc"` with the two configured presets
yields two `undefined`-bearing addresses. -/
theorem shortBase_amended_witness :
    generateDatUrls (some "abc") ["TestPreset", "crop300"]
      = [("TestPreset", "https://jakob-spott.bynder.com/transform/TestPreset/undefined/abc"),
         ("crop300", "https://jakob-spott.bynder.com/transform/crop300/undefined/abc")] := by
  have h := (shortBase_amended "abc" ["TestPreset", "crop300"] (by decide) (by decide)).1
  rw [h]
  decide
